import Mathlib

/-!
Verification development for the lock-selection and lock-export core of
`pex/cli/commands/lock.py` (the `Lock` CLI command with its `_create` and
`_export` subcommands, plus the `ExportFormat` enumeration).

The embedding is shallow: the external collaborators (requirement parsing,
the download/resolve engine, lock-document loading, target discovery) are
passed in as already-computed inputs, and the module's own control flow,
grouping algorithm and message construction are translated function by
function.  Collaborators that live in other modules of the repository
(`Lockfile.select`, `Lockfile.create`, `pluralize`, the rendering of
targets) are modelled from the specification and carry a
`Modelled from the spec` note in their doc comment.
-/

/-- Model of `pex.distribution_target.DistributionTarget`: an opaque
interpreter+platform identifier, used only for equality, grouping and
rendering into diagnostic messages.  The `name` field stands for its
string rendering. -/
structure DistributionTarget where
  name : String
deriving DecidableEq, Repr

/-- Model of `pex.resolve.locked_resolve.LockedResolve`: an immutable
fully-resolved dependency set, tagged with a human-readable platform label
and owning the flat requirement lines that `emit_requirements` writes. -/
structure LockedResolve where
  platform_tag : String
  requirements : List String
deriving DecidableEq, Repr

/-- Model of `pex.cli.commands.lockfile.Lockfile`: the persisted aggregate
of resolver configuration, the original requirement and constraint specs
and an ordered sequence of locked resolves.  Requirements and constraints
are opaque strings. -/
structure Lockfile where
  pex_version : String
  resolver_version : String
  requirements : List String
  constraints : List String
  allow_prereleases : Bool
  allow_wheels : Bool
  allow_builds : Bool
  transitive : Bool
  locked_resolves : List LockedResolve
deriving DecidableEq, Repr

/-- Modelled from the spec: `pex.common.pluralize` renders a count noun,
singular for count 1 and with an `s` appended otherwise (spec section 8:
"correctly pluralized (singular \x22lock\x22 for count 1, \x22locks\x22
otherwise)").  The Python helper receives the collection; the model
receives its length. -/
def pluralize (count : Nat) (noun : String) : String :=
  if count = 1 then noun else noun ++ "s"

/-- Shared rendering of the `enumerate(xs, start=1)` pattern used by both
error reports in the source: line `i` is `i.) <render xi>` with `i`
starting at 1. -/
def enumeratedLines {α : Type} (render : α → String) (xs : List α) : List String :=
  (List.enumFrom 1 xs).map (fun p => toString p.1 ++ ".) " ++ render p.2)

/-- Modelled from the spec: the string rendering of one target in the
no-applicable-lock report (`str(target)` in Python); targets carry their
rendering as their `name`. -/
def targetStr (t : DistributionTarget) : String :=
  t.name

/-- Modelled from the spec: the Python rendering of a whole list of
targets (`str(list_of_targets)`) used in the multiple-locks report — the
full, untruncated list between brackets. -/
def targetsListStr (ts : List DistributionTarget) : String :=
  "[" ++ String.intercalate ", " (ts.map targetStr) ++ "]"

/-- Modelled from the spec: the repr of the single supported export format
value (`{pip!r}` in the source's format strings). -/
def pipFormatRepr : String :=
  "pip"

/-- Model of `ExportFormat` (`lock.py` lines 31-37): a closed enumeration
with exactly the two recognized values `pip` and `pep-665`. -/
inductive ExportFormat where
  | PIP
  | PEP_665
deriving DecidableEq, Repr

/-- Model of `pex.commands.command.Result`: either `Ok` or an `Error`
carrying a human-readable message. -/
inductive Result where
  | Ok : Result
  | Error : String → Result
deriving DecidableEq, Repr

/-- Modelled from the spec: the lock document's selection query
(`lf.select(targets)`, a capability of `pex/cli/commands/lockfile.py`,
which is outside this unit).  Per spec sections 4.2 (step 4) and 6, for
each target, in input order, it yields the `(target, LockedResolve)`
applicability pairs, driven by the external `applies_to` predicate over
the document's stored resolves in stored order. -/
def Lockfile.select (applies_to : LockedResolve → DistributionTarget → Bool)
    (lf : Lockfile) (targets : List DistributionTarget) :
    List (DistributionTarget × LockedResolve) :=
  targets.flatMap (fun target =>
    (lf.locked_resolves.filter (fun lr => applies_to lr target)).map
      (fun lr => (target, lr)))

/-- One step of the grouping loop (`selected_locks[locked_resolve].append(target)`
on the `defaultdict(list)`): append `t` to the entry of key `k`, creating
the entry at the end in first-seen position when absent. -/
def insertSelected {K T : Type} [DecidableEq K]
    (m : List (K × List T)) (k : K) (t : T) : List (K × List T) :=
  match m with
  | [] => [(k, [t])]
  | (k₀, ts) :: rest =>
    if k₀ = k then (k₀, ts ++ [t]) :: rest
    else (k₀, ts) :: insertSelected rest k t

/-- The grouping step of `_export` (`lock.py` lines 221-226): a single
left fold of the `(target, LockedResolve)` stream into an insertion-order
mapping `LockedResolve -> list of targets that selected it`, exactly the
source's `for target, locked_resolve in lf.select(targets)` loop over a
`defaultdict(list)`. -/
def groupSelected {K T : Type} [DecidableEq K]
    (pairs : List (T × K)) : List (K × List T) :=
  pairs.foldl (fun m p => insertSelected m p.2 p.1) []

/-- Lookup in the insertion-order mapping, for specification purposes. -/
def assocFind {K T : Type} [DecidableEq K]
    (m : List (K × List T)) (k : K) : Option (List T) :=
  match m with
  | [] => none
  | (k₀, ts) :: rest => if k₀ = k then some ts else assocFind rest k

/-- Key sequence of the insertion-order mapping. -/
def keysOf {K T : Type} (m : List (K × List T)) : List K :=
  m.map Prod.fst

/-- The stream-order list of targets that selected key `k` in a
`(target, key)` stream. -/
def selTargets {K T : Type} [DecidableEq K]
    (pairs : List (T × K)) (k : K) : List T :=
  (pairs.filter (fun p => decide (p.2 = k))).map Prod.fst

/-- First-seen deduplication of a list: keeps the first occurrence of each
element, in order of first appearance. -/
def firstSeen {K : Type} [DecidableEq K] : List K → List K
  | [] => []
  | x :: xs => x :: (firstSeen xs).filter (fun y => decide (y ≠ x))

/-- The no-applicable-lock report of `_export` (`lock.py` lines 236-248):
total stored-lock count (pluralized), document path, and the 1-indexed
enumeration of the requested targets. -/
def noApplicableError (lockfile_path : String) (locksCount : Nat)
    (targets : List DistributionTarget) : String :=
  "Of the " ++ toString locksCount ++ " " ++ pluralize locksCount "lock" ++
    " stored in " ++ lockfile_path ++
    ", none were applicable for the selected targets:\n" ++
    String.intercalate "\n" (enumeratedLines targetStr targets)

/-- The multiple-locks report of `_export` (`lock.py` lines 250-267):
single-lock restriction for the pip format, stored-lock count with
was/were agreement, document path, and the 1-indexed enumeration of the
applicable groups, each pairing its platform label with the full list of
targets that selected it. -/
def multipleLocksError (lockfile_path : String) (locksCount : Nat)
    (selected : List (LockedResolve × List DistributionTarget)) : String :=
  "Only a single lock can be exported in the " ++ pipFormatRepr ++ " format.\n" ++
    "There " ++ (if locksCount = 1 then "was" else "were") ++ " " ++
    toString locksCount ++ " " ++ pluralize locksCount "lock" ++
    " stored in " ++ lockfile_path ++
    " that were applicable for the selected targets:\n" ++
    String.intercalate "\n"
      (enumeratedLines
        (fun g => g.1.platform_tag ++ ": " ++ targetsListStr g.2) selected)

/-- The format-restriction error of `_export` (`lock.py` lines 208-210). -/
def unsupportedFormatError : String :=
  "Only the " ++ pipFormatRepr ++ " lock format is supported currently."

/-- Outcome of one `_export` invocation: the returned `Result`, whether
the output sink was ever opened, and the lines emitted to it. -/
structure ExportResult where
  result : Result
  sink_opened : Bool
  emitted : List String
deriving DecidableEq, Repr

/-- The cardinality decision of `_export` (`lock.py` lines 228-267) on the
already-built grouping: exactly one group emits that resolve's
requirements (the `popitem()` of the single-entry dict); zero groups and
two-or-more groups produce the two diagnostic reports, with the sink never
opened. -/
def exportDecide (lockfile_path : String) (lf : Lockfile)
    (selected_locks : List (LockedResolve × List DistributionTarget))
    (targets : List DistributionTarget) : ExportResult :=
  match selected_locks with
  | [(locked_resolve, _)] =>
    { result := Result.Ok, sink_opened := true,
      emitted := locked_resolve.requirements }
  | [] =>
    { result := Result.Error
        (noApplicableError lockfile_path lf.locked_resolves.length targets),
      sink_opened := false, emitted := [] }
  | _ :: _ :: _ =>
    { result := Result.Error
        (multipleLocksError lockfile_path lf.locked_resolves.length selected_locks),
      sink_opened := false, emitted := [] }

/-- Model of `Lock._export` (`lock.py` lines 205-267).  External inputs:
the parsed `--format` value, the lock-file path, the outcome of
`lockfile.load` (`Except.error` carries `str(e)` of the `ParseError`), the
applicability predicate behind the document's selection query, and the
concrete target set from `target_configuration.unique_targets()`. -/
def Lock._export (format : ExportFormat) (lockfile_path : String)
    (load_result : Except String Lockfile)
    (applies_to : LockedResolve → DistributionTarget → Bool)
    (targets : List DistributionTarget) : ExportResult :=
  if format ≠ ExportFormat.PIP then
    { result := Result.Error unsupportedFormatError,
      sink_opened := false, emitted := [] }
  else
    match load_result with
    | Except.error e =>
      { result := Result.Error e, sink_opened := false, emitted := [] }
    | Except.ok lf =>
      exportDecide lockfile_path lf
        (groupSelected (lf.select applies_to targets)) targets

/-- Model of one parsed requirement entry (the stream produced by
`requirement_configuration.parse_requirements`): either a
`LocalProjectRequirement`, carrying its filesystem `path`, or a plain
parsed requirement, carrying its `requirement` payload. -/
inductive ParsedRequirement where
  | localProject (path : String)
  | requirement (req : String)
deriving DecidableEq, Repr

/-- The `.requirement` payloads of the non-local entries, in input order —
the `requirements` list built by the partition loop of `_create`
(`lock.py` lines 140-148). -/
def plainRequirements (prs : List ParsedRequirement) : List String :=
  prs.filterMap (fun pr =>
    match pr with
    | ParsedRequirement.localProject _ => none
    | ParsedRequirement.requirement r => some r)

/-- The paths of the local-project entries, in input order — the
`local_projects` list built by the partition loop of `_create`
(`lock.py` lines 140-148). -/
def localProjectPaths (prs : List ParsedRequirement) : List String :=
  prs.filterMap (fun pr =>
    match pr with
    | ParsedRequirement.localProject p => some p
    | ParsedRequirement.requirement _ => none)

/-- The local-project rejection report of `_create` (`lock.py` lines
150-159): count of offending entries and their 1-indexed enumeration. -/
def localProjectsError (local_projects : List String) : String :=
  "Cannot create a lock for local project requirements. Given " ++
    toString local_projects.length ++ ":\n" ++
    String.intercalate "\n" (enumeratedLines (fun p => p) local_projects)

/-- Modelled from the spec: `Lockfile.create`
(`pex/cli/commands/lockfile.py`, outside this unit) assembles the lock
document from the tool version, the resolver version, the original
requirement and constraint objects, the boolean configuration flags and
the downloaded ordered sequence of locked resolves (spec section 4.1
step 3). -/
def Lockfile.create (pex_version resolver_version : String)
    (requirements constraints : List String)
    (allow_prereleases allow_wheels allow_builds transitive : Bool)
    (locked_resolves : List LockedResolve) : Lockfile :=
  { pex_version := pex_version, resolver_version := resolver_version,
    requirements := requirements, constraints := constraints,
    allow_prereleases := allow_prereleases, allow_wheels := allow_wheels,
    allow_builds := allow_builds, transitive := transitive,
    locked_resolves := locked_resolves }

/-- Outcome of one `_create` invocation: the returned `Result`, whether
the external download/resolve step was invoked, and the assembled lock
document dumped to the output sink, when any. -/
structure CreateResult where
  result : Result
  download_invoked : Bool
  doc : Option Lockfile
deriving DecidableEq, Repr

/-- One step of the partition loop of `_create` (`lock.py` lines
142-148): route a parsed entry into the `requirements` or
`local_projects` accumulator. -/
def partitionStep (acc : List String × List String)
    (pr : ParsedRequirement) : List String × List String :=
  match pr with
  | ParsedRequirement.localProject p => (acc.1, acc.2 ++ [p])
  | ParsedRequirement.requirement r => (acc.1 ++ [r], acc.2)

/-- Model of `Lock._create` (`lock.py` lines 134-203).  External inputs:
the tool and resolver versions, the parsed requirement entries, the
parsed constraint payloads, the boolean resolver flags stored into the
document, and the outcome of the external `resolver.download` step (an
ordered sequence of locked resolves, or a terminal resolution error). -/
def Lock._create (pex_version resolver_version : String)
    (parsed_requirements : List ParsedRequirement)
    (parsed_constraints : List String)
    (allow_prereleases allow_wheels allow_builds transitive : Bool)
    (download_result : Except String (List LockedResolve)) : CreateResult :=
  let acc := parsed_requirements.foldl partitionStep ([], [])
  let requirements := acc.1
  let local_projects := acc.2
  if local_projects ≠ [] then
    { result := Result.Error (localProjectsError local_projects),
      download_invoked := false, doc := none }
  else
    match download_result with
    | Except.error e =>
      { result := Result.Error e, download_invoked := true, doc := none }
    | Except.ok locked_resolves =>
      { result := Result.Ok, download_invoked := true,
        doc := some (Lockfile.create pex_version resolver_version
          requirements parsed_constraints allow_prereleases allow_wheels
          allow_builds transitive locked_resolves) }

theorem keysOf_insertSelected {K T : Type} [DecidableEq K]
    (m : List (K × List T)) (k : K) (t : T) :
    keysOf (insertSelected m k t) =
      if k ∈ keysOf m then keysOf m else keysOf m ++ [k] := by
  induction m with
  | nil => simp [insertSelected, keysOf]
  | cons hd rest ih =>
    obtain ⟨k₀, ts⟩ := hd
    by_cases h : k₀ = k
    · subst h
      simp [insertSelected, keysOf]
    · by_cases hm : k ∈ keysOf rest <;>
        simp only [keysOf] at ih hm ⊢ <;>
        simp [insertSelected, h, Ne.symm h, hm, ih]

theorem assocFind_insertSelected_self {K T : Type} [DecidableEq K]
    (m : List (K × List T)) (k : K) (t : T) :
    assocFind (insertSelected m k t) k =
      some ((assocFind m k).getD [] ++ [t]) := by
  induction m with
  | nil => simp [insertSelected, assocFind]
  | cons hd rest ih =>
    obtain ⟨k₀, ts⟩ := hd
    by_cases h : k₀ = k
    · subst h
      simp [insertSelected, assocFind]
    · simp [insertSelected, assocFind, h, ih]

theorem assocFind_insertSelected_ne {K T : Type} [DecidableEq K]
    (m : List (K × List T)) (k k₁ : K) (t : T) (h : k₁ ≠ k) :
    assocFind (insertSelected m k t) k₁ = assocFind m k₁ := by
  induction m with
  | nil => simp [insertSelected, assocFind, Ne.symm h]
  | cons hd rest ih =>
    obtain ⟨k₀, ts⟩ := hd
    by_cases h0 : k₀ = k
    · subst h0
      simp [insertSelected, assocFind, Ne.symm h]
    · simp [insertSelected, assocFind, h0, ih]

theorem mem_firstSeen {K : Type} [DecidableEq K] (l : List K) (x : K) :
    x ∈ firstSeen l ↔ x ∈ l := by
  induction l with
  | nil => simp [firstSeen]
  | cons y ys ih =>
    by_cases h : x = y <;> simp [firstSeen, List.mem_filter, ih, h]

theorem firstSeen_nodup {K : Type} [DecidableEq K] (l : List K) :
    (firstSeen l).Nodup := by
  induction l with
  | nil => simp [firstSeen]
  | cons y ys ih =>
    refine List.Nodup.cons ?_ (List.Nodup.filter _ ih)
    intro hmem
    rcases List.mem_filter.mp hmem with ⟨_, hne⟩
    simp at hne

theorem firstSeen_filter {K : Type} [DecidableEq K] (p : K → Bool)
    (l : List K) :
    firstSeen (l.filter p) = (firstSeen l).filter p := by
  induction l with
  | nil => simp [firstSeen]
  | cons y ys ih =>
    by_cases h : p y
    · rw [List.filter_cons_of_pos h]
      simp only [firstSeen, ih]
      rw [List.filter_cons_of_pos h]
      simp [List.filter_filter, Bool.and_comm]
    · rw [List.filter_cons_of_neg (by simp [h])]
      rw [ih]
      simp only [firstSeen]
      rw [List.filter_cons_of_neg (by simp [h])]
      rw [List.filter_filter]
      refine (List.filter_congr fun a _ => ?_).symm
      by_cases ha : a = y
      · subst ha
        simp [h]
      · simp [ha]

theorem filter_not_mem_append {K : Type} [DecidableEq K]
    (l A : List K) (k : K) :
    l.filter (fun a => decide (a ∉ A ++ [k])) =
      (l.filter (fun a => decide (a ∉ A))).filter (fun a => decide (a ≠ k)) := by
  rw [List.filter_filter]
  refine (List.filter_congr fun a _ => ?_).symm
  by_cases ha : a = k
  · subst ha
    simp
  · by_cases ha2 : a ∈ A <;> simp [ha, ha2]

theorem keysOf_groupFold {K T : Type} [DecidableEq K]
    (pairs : List (T × K)) (m : List (K × List T)) :
    keysOf (pairs.foldl (fun m p => insertSelected m p.2 p.1) m) =
      keysOf m ++ firstSeen ((pairs.map Prod.snd).filter
        (fun k => decide (k ∉ keysOf m))) := by
  induction pairs generalizing m with
  | nil => simp [firstSeen]
  | cons hd rest ih =>
    obtain ⟨t, k⟩ := hd
    simp only [List.foldl_cons, List.map_cons, List.filter_cons]
    rw [ih, keysOf_insertSelected]
    by_cases hm : k ∈ keysOf m
    · rw [if_pos hm, if_neg (by simp [hm])]
    · rw [if_neg hm, if_pos (by simp [hm] : decide (k ∉ keysOf m) = true)]
      rw [filter_not_mem_append, firstSeen_filter]
      simp only [firstSeen]
      rw [← firstSeen_filter, List.append_assoc, List.singleton_append]

theorem keysOf_groupSelected {K T : Type} [DecidableEq K]
    (pairs : List (T × K)) :
    keysOf (groupSelected pairs) = firstSeen (pairs.map Prod.snd) := by
  rw [groupSelected, keysOf_groupFold]
  simp [keysOf]

theorem keysOf_groupSelected_nodup {K T : Type} [DecidableEq K]
    (pairs : List (T × K)) :
    (keysOf (groupSelected pairs)).Nodup := by
  rw [keysOf_groupSelected]
  exact firstSeen_nodup _

theorem assocFind_groupFold_some {K T : Type} [DecidableEq K]
    (pairs : List (T × K)) (m : List (K × List T)) (k : K) (ts : List T)
    (h : assocFind m k = some ts) :
    assocFind (pairs.foldl (fun m p => insertSelected m p.2 p.1) m) k =
      some (ts ++ selTargets pairs k) := by
  induction pairs generalizing m ts with
  | nil => simp [selTargets, h]
  | cons hd rest ih =>
    obtain ⟨t, k₁⟩ := hd
    simp only [List.foldl_cons]
    by_cases hk : k₁ = k
    · subst hk
      have hself := assocFind_insertSelected_self m k₁ t
      rw [h] at hself
      simp only [Option.getD_some] at hself
      rw [ih _ _ hself]
      simp [selTargets, List.filter_cons]
    · rw [ih _ _ (by
        rw [assocFind_insertSelected_ne _ _ _ _ (Ne.symm hk)]
        exact h)]
      simp [selTargets, List.filter_cons, hk]

theorem assocFind_groupFold_none {K T : Type} [DecidableEq K]
    (pairs : List (T × K)) (m : List (K × List T)) (k : K)
    (h : assocFind m k = none) :
    assocFind (pairs.foldl (fun m p => insertSelected m p.2 p.1) m) k =
      if k ∈ pairs.map Prod.snd then some (selTargets pairs k) else none := by
  induction pairs generalizing m with
  | nil => simp [h]
  | cons hd rest ih =>
    obtain ⟨t, k₁⟩ := hd
    simp only [List.foldl_cons]
    by_cases hk : k₁ = k
    · subst hk
      have hself := assocFind_insertSelected_self m k₁ t
      rw [h] at hself
      simp only [Option.getD_none, List.nil_append] at hself
      rw [assocFind_groupFold_some rest _ _ _ hself]
      simp [selTargets, List.filter_cons]
    · rw [ih _ (by
        rw [assocFind_insertSelected_ne _ _ _ _ (Ne.symm hk)]
        exact h)]
      by_cases hmem : k ∈ List.map Prod.snd rest <;>
        simp [selTargets, List.filter_cons, hk, Ne.symm hk, List.mem_cons, hmem]

theorem assocFind_groupSelected {K T : Type} [DecidableEq K]
    (pairs : List (T × K)) (k : K) :
    assocFind (groupSelected pairs) k =
      if k ∈ pairs.map Prod.snd then some (selTargets pairs k) else none := by
  rw [groupSelected]
  exact assocFind_groupFold_none pairs [] k rfl

theorem assocFind_of_mem_nodup {K T : Type} [DecidableEq K]
    (m : List (K × List T)) (g : K × List T)
    (hg : g ∈ m) (hn : (keysOf m).Nodup) : assocFind m g.1 = some g.2 := by
  induction m with
  | nil => simp at hg
  | cons hd rest ih =>
    obtain ⟨k₀, ts⟩ := hd
    have hn' : k₀ ∉ List.map Prod.fst rest ∧ (List.map Prod.fst rest).Nodup :=
      List.nodup_cons.mp (by simpa only [keysOf, List.map_cons] using hn)
    rcases List.mem_cons.mp hg with hcase | hcase
    · subst hcase
      simp [assocFind]
    · have hk : k₀ ≠ g.1 := by
        intro he
        refine hn'.1 ?_
        rw [he]
        exact List.mem_map_of_mem Prod.fst hcase
      simp only [assocFind, if_neg hk]
      exact ih hcase hn'.2

theorem groupSelected_group_eq {K T : Type} [DecidableEq K]
    (pairs : List (T × K)) (g : K × List T)
    (hg : g ∈ groupSelected pairs) :
    g.2 = selTargets pairs g.1 := by
  have hfind := assocFind_of_mem_nodup _ _ hg (keysOf_groupSelected_nodup pairs)
  have hmem : g.1 ∈ pairs.map Prod.snd := by
    have hk : g.1 ∈ keysOf (groupSelected pairs) :=
      by simpa [keysOf] using List.mem_map_of_mem Prod.fst hg
    rw [keysOf_groupSelected] at hk
    exact (mem_firstSeen _ _).mp hk
  rw [assocFind_groupSelected, if_pos hmem] at hfind
  exact Option.some.inj hfind.symm

theorem mem_keysOf_groupSelected {K T : Type} [DecidableEq K]
    (pairs : List (T × K)) (k : K) :
    k ∈ keysOf (groupSelected pairs) ↔ k ∈ pairs.map Prod.snd := by
  rw [keysOf_groupSelected]
  exact mem_firstSeen _ _

theorem groupFold_const_key {K T : Type} [DecidableEq K]
    (targets : List T) (k : K) (ts₀ : List T) :
    (targets.map (fun t => (t, k))).foldl
        (fun m p => insertSelected m p.2 p.1) [(k, ts₀)] =
      [(k, ts₀ ++ targets)] := by
  induction targets generalizing ts₀ with
  | nil => simp
  | cons t rest ih =>
    simp only [List.map_cons, List.foldl_cons]
    rw [show insertSelected [(k, ts₀)] k t = [(k, ts₀ ++ [t])] from by
      simp [insertSelected]]
    rw [ih]
    simp

theorem groupSelected_const_key {K T : Type} [DecidableEq K]
    (targets : List T) (k : K) (hne : targets ≠ []) :
    groupSelected (targets.map (fun t => (t, k))) = [(k, targets)] := by
  obtain ⟨t, rest, rfl⟩ := List.exists_cons_of_ne_nil hne
  rw [groupSelected]
  simp only [List.map_cons, List.foldl_cons]
  rw [show insertSelected ([] : List (K × List T)) k t = [(k, [t])] from rfl]
  rw [groupFold_const_key]
  simp

theorem select_singleton_applicable (lf : Lockfile) (lr : LockedResolve)
    (applies_to : LockedResolve → DistributionTarget → Bool)
    (targets : List DistributionTarget)
    (h₁ : lf.locked_resolves = [lr])
    (h₂ : ∀ t ∈ targets, applies_to lr t = true) :
    lf.select applies_to targets = targets.map (fun t => (t, lr)) := by
  rw [Lockfile.select, h₁]
  revert h₂
  induction targets with
  | nil => intro _; rfl
  | cons t rest ih =>
    intro h₂
    have hat : applies_to lr t = true := h₂ t (List.mem_cons_self _ _)
    simp only [List.flatMap_cons, List.map_cons]
    rw [show List.filter (fun x => applies_to x t) [lr] = [lr] from by
      simp [List.filter, hat]]
    rw [ih (fun u hu => h₂ u (List.mem_cons_of_mem _ hu))]
    rfl

theorem select_none_applicable (lf : Lockfile)
    (applies_to : LockedResolve → DistributionTarget → Bool)
    (targets : List DistributionTarget)
    (h : ∀ lr ∈ lf.locked_resolves, ∀ t ∈ targets, applies_to lr t = false) :
    lf.select applies_to targets = [] := by
  rw [Lockfile.select]
  revert h
  induction targets with
  | nil => intro _; rfl
  | cons t rest ih =>
    intro h
    simp only [List.flatMap_cons]
    rw [List.filter_eq_nil_iff.mpr (fun lr hlr => by
      simp [h lr hlr t (List.mem_cons_self _ _)])]
    simp only [List.map_nil, List.nil_append]
    exact ih (fun lr hlr u hu => h lr hlr u (List.mem_cons_of_mem _ hu))

theorem partition_foldl (prs : List ParsedRequirement)
    (acc : List String × List String) :
    prs.foldl partitionStep acc =
      (acc.1 ++ plainRequirements prs, acc.2 ++ localProjectPaths prs) := by
  induction prs generalizing acc with
  | nil => simp [plainRequirements, localProjectPaths]
  | cons pr rest ih =>
    cases pr with
    | localProject p =>
      simp only [List.foldl_cons, partitionStep]
      rw [ih]
      simp [plainRequirements, localProjectPaths, List.filterMap_cons]
    | requirement r =>
      simp only [List.foldl_cons, partitionStep]
      rw [ih]
      simp [plainRequirements, localProjectPaths, List.filterMap_cons]

theorem mem_localProjectPaths (prs : List ParsedRequirement) (p : String) :
    p ∈ localProjectPaths prs ↔ ParsedRequirement.localProject p ∈ prs := by
  rw [localProjectPaths, List.mem_filterMap]
  constructor
  · rintro ⟨pr, hmem, hsome⟩
    cases pr with
    | localProject q =>
      simp only [Option.some.injEq] at hsome
      rw [hsome] at hmem
      exact hmem
    | requirement r => simp at hsome
  · intro hmem
    exact ⟨ParsedRequirement.localProject p, hmem, rfl⟩

theorem pluralize_lock (n : Nat) :
    pluralize n "lock" = if n = 1 then "lock" else "locks" := by
  by_cases hn : n = 1 <;> simp [pluralize, hn]

theorem enumeratedLines_length {α : Type} (render : α → String)
    (xs : List α) :
    (enumeratedLines render xs).length = xs.length := by
  simp [enumeratedLines]

/-- C1: for every lock document with exactly one stored locked resolve and
every non-empty target set for which that resolve is applicable to every
target, the grouping built from the document's selection stream has
exactly one key, and `_export` succeeds, opening the output sink and
emitting exactly that resolve's requirements, unchanged. -/
theorem export_single_resolve_success (lockfile_path : String)
    (lf : Lockfile) (lr : LockedResolve)
    (applies_to : LockedResolve → DistributionTarget → Bool)
    (targets : List DistributionTarget)
    (hres : lf.locked_resolves = [lr])
    (hne : targets ≠ [])
    (happ : ∀ t ∈ targets, applies_to lr t = true) :
    groupSelected (lf.select applies_to targets) = [(lr, targets)] ∧
    Lock._export ExportFormat.PIP lockfile_path (Except.ok lf) applies_to
        targets =
      { result := Result.Ok, sink_opened := true,
        emitted := lr.requirements } := by
  have hgrp : groupSelected (lf.select applies_to targets) = [(lr, targets)] := by
    rw [select_singleton_applicable lf lr applies_to targets hres happ]
    exact groupSelected_const_key targets lr hne
  refine ⟨hgrp, ?_⟩
  simp [Lock._export, exportDecide, hgrp]

theorem export_single_resolve_success_witness :
    groupSelected
        ((Lockfile.mk "2.1.50" "pip-2020-resolver" ["ansicolors"] []
            false true true true
            [LockedResolve.mk "linux_x86_64"
              ["ansicolors==1.1.8 --hash=sha256:abc"]]).select
          (fun _ _ => true) [DistributionTarget.mk "cp39-cp39-linux_x86_64"]) =
      [(LockedResolve.mk "linux_x86_64"
          ["ansicolors==1.1.8 --hash=sha256:abc"],
        [DistributionTarget.mk "cp39-cp39-linux_x86_64"])] ∧
    Lock._export ExportFormat.PIP "lock.json"
        (Except.ok (Lockfile.mk "2.1.50" "pip-2020-resolver" ["ansicolors"] []
          false true true true
          [LockedResolve.mk "linux_x86_64"
            ["ansicolors==1.1.8 --hash=sha256:abc"]]))
        (fun _ _ => true) [DistributionTarget.mk "cp39-cp39-linux_x86_64"] =
      { result := Result.Ok, sink_opened := true,
        emitted := ["ansicolors==1.1.8 --hash=sha256:abc"] } :=
  export_single_resolve_success "lock.json" _ _ _ _ rfl (by decide)
    (fun _ _ => rfl)

/-- C6: requesting any export format other than the single supported `pip`
value — in this enumeration, the value `pep-665` — fails immediately with
the named-format error, and the outcome is independent of the lock-file
load result, so a malformed or missing lock document cannot affect this
failure. -/
theorem export_unsupported_format_preflight (format : ExportFormat)
    (h : format ≠ ExportFormat.PIP) (lockfile_path : String)
    (load_result load_result' : Except String Lockfile)
    (applies_to : LockedResolve → DistributionTarget → Bool)
    (targets : List DistributionTarget) :
    Lock._export format lockfile_path load_result applies_to targets =
      { result := Result.Error unsupportedFormatError, sink_opened := false,
        emitted := [] } ∧
    Lock._export format lockfile_path load_result applies_to targets =
      Lock._export format lockfile_path load_result' applies_to targets := by
  have hall : ∀ lr : Except String Lockfile,
      Lock._export format lockfile_path lr applies_to targets =
        { result := Result.Error unsupportedFormatError, sink_opened := false,
          emitted := [] } := fun lr => by
    simp [Lock._export, h]
  exact ⟨hall _, (hall _).trans (hall _).symm⟩

theorem export_unsupported_format_preflight_witness :
    Lock._export ExportFormat.PEP_665 "lock.json" (Except.error "bad json")
        (fun _ _ => true) [] =
      { result := Result.Error unsupportedFormatError, sink_opened := false,
        emitted := [] } ∧
    Lock._export ExportFormat.PEP_665 "lock.json" (Except.error "bad json")
        (fun _ _ => true) [] =
      Lock._export ExportFormat.PEP_665 "lock.json"
        (Except.ok (Lockfile.mk "2.1.50" "pip-2020-resolver" [] [] false true
          true true [])) (fun _ _ => true) [] :=
  export_unsupported_format_preflight ExportFormat.PEP_665 (by decide)
    "lock.json" _ _ _ _

/-- C7: the export engine's grouping step is the single left fold of the
`(target, LockedResolve)` pairs yielded by the document's selection query;
each group's target list is the stream-order list of targets that selected
that resolve, and the mapping's key order is the first-seen order of
locked resolves in the stream. -/
theorem groupSelected_is_ordered_fold (lf : Lockfile)
    (applies_to : LockedResolve → DistributionTarget → Bool)
    (targets : List DistributionTarget) :
    groupSelected (lf.select applies_to targets) =
      (lf.select applies_to targets).foldl
        (fun m p => insertSelected m p.2 p.1) [] ∧
    keysOf (groupSelected (lf.select applies_to targets)) =
      firstSeen ((lf.select applies_to targets).map Prod.snd) ∧
    ∀ g ∈ groupSelected (lf.select applies_to targets),
      g.2 = selTargets (lf.select applies_to targets) g.1 :=
  ⟨rfl, keysOf_groupSelected _,
    fun g hg => groupSelected_group_eq _ g hg⟩

/-- C8: when the lock document fails to parse, `_export` returns an error
(rather than propagating the failure) whose message is exactly the parse
error's message, carried verbatim, with nothing emitted. -/
theorem export_parse_error_verbatim (lockfile_path msg : String)
    (applies_to : LockedResolve → DistributionTarget → Bool)
    (targets : List DistributionTarget) :
    Lock._export ExportFormat.PIP lockfile_path (Except.error msg) applies_to
        targets =
      { result := Result.Error msg, sink_opened := false, emitted := [] } := by
  simp [Lock._export]

/-- C10: for every successfully loaded lock document, an empty concrete
target set makes the selection stream empty, so `_export` never succeeds:
it returns the no-applicable-lock error carrying the document's
stored-resolve count and an empty (zero-entry) target enumeration. -/
theorem export_empty_targets_never_succeeds (lockfile_path : String)
    (lf : Lockfile)
    (applies_to : LockedResolve → DistributionTarget → Bool) :
    lf.select applies_to [] = [] ∧
    Lock._export ExportFormat.PIP lockfile_path (Except.ok lf) applies_to [] =
      { result := Result.Error (noApplicableError lockfile_path
          lf.locked_resolves.length []),
        sink_opened := false, emitted := [] } ∧
    enumeratedLines targetStr ([] : List DistributionTarget) = [] := by
  refine ⟨rfl, ?_, rfl⟩
  simp [Lock._export, exportDecide, groupSelected, Lockfile.select]

/-- C2: when the grouping maps the targets to two or more distinct locked
resolves, `_export` fails without emitting anything; the error states that
only a single lock can be exported in the supported format, names the
document path, reports the total stored-lock count with matching
singular/plural noun and verb agreement, and lists each applicable group
exactly once (the grouping's keys are pairwise distinct), 1-indexed,
pairing each group's platform label with the full, untruncated list of
targets that selected it. -/
theorem export_multiple_locks_report (lockfile_path : String)
    (lf : Lockfile)
    (applies_to : LockedResolve → DistributionTarget → Bool)
    (targets : List DistributionTarget)
    (h : 2 ≤ (groupSelected (lf.select applies_to targets)).length) :
    Lock._export ExportFormat.PIP lockfile_path (Except.ok lf) applies_to
        targets =
      { result := Result.Error (multipleLocksError lockfile_path
          lf.locked_resolves.length
          (groupSelected (lf.select applies_to targets))),
        sink_opened := false, emitted := [] } ∧
    (keysOf (groupSelected (lf.select applies_to targets))).Nodup ∧
    (∀ g ∈ groupSelected (lf.select applies_to targets),
      g.2 = selTargets (lf.select applies_to targets) g.1) ∧
    multipleLocksError lockfile_path lf.locked_resolves.length
        (groupSelected (lf.select applies_to targets)) =
      "Only a single lock can be exported in the " ++ pipFormatRepr ++
        " format.\n" ++
        "There " ++
        (if lf.locked_resolves.length = 1 then "was" else "were") ++ " " ++
        toString lf.locked_resolves.length ++ " " ++
        (if lf.locked_resolves.length = 1 then "lock" else "locks") ++
        " stored in " ++ lockfile_path ++
        " that were applicable for the selected targets:\n" ++
        String.intercalate "\n" (enumeratedLines
          (fun g => g.1.platform_tag ++ ": " ++ targetsListStr g.2)
          (groupSelected (lf.select applies_to targets))) := by
  refine ⟨?_, keysOf_groupSelected_nodup _,
    fun g hg => groupSelected_group_eq _ g hg, ?_⟩
  · rcases hshape : groupSelected (lf.select applies_to targets) with
      _ | ⟨⟨k₁, ts₁⟩, _ | ⟨⟨k₂, ts₂⟩, rest⟩⟩
    · rw [hshape] at h
      simp at h
    · rw [hshape] at h
      simp at h
    · simp [Lock._export, exportDecide, hshape]
  · simp only [multipleLocksError, pluralize_lock]

theorem export_multiple_locks_report_witness :
    Lock._export ExportFormat.PIP "lock.json"
        (Except.ok (Lockfile.mk "2.1.50" "pip-2020-resolver" ["a"] []
          false true true true
          [LockedResolve.mk "linux_x86_64" ["a==1 --hash=sha256:aa"],
            LockedResolve.mk "macosx_x86_64" ["a==1 --hash=sha256:bb"]]))
        (fun _ _ => true) [DistributionTarget.mk "cp39-cp39-manylinux1"] =
      { result := Result.Error (multipleLocksError "lock.json" 2
          [(LockedResolve.mk "linux_x86_64" ["a==1 --hash=sha256:aa"],
              [DistributionTarget.mk "cp39-cp39-manylinux1"]),
            (LockedResolve.mk "macosx_x86_64" ["a==1 --hash=sha256:bb"],
              [DistributionTarget.mk "cp39-cp39-manylinux1"])]),
        sink_opened := false, emitted := [] } :=
  (export_multiple_locks_report "lock.json" _ _ _ (by decide)).1

/-- C3: when no stored locked resolve is applicable to any requested
target, the grouping is empty and `_export` fails with a report whose
enumerated 1-indexed target listing has exactly as many entries as the
input target set, whose reported lock count is the document's
stored-resolve count rendered as the singular `lock` exactly when that
count is 1 and `locks` otherwise, and which names the document's path. -/
theorem export_none_applicable_report (lockfile_path : String)
    (lf : Lockfile)
    (applies_to : LockedResolve → DistributionTarget → Bool)
    (targets : List DistributionTarget)
    (h : ∀ lr ∈ lf.locked_resolves, ∀ t ∈ targets, applies_to lr t = false) :
    Lock._export ExportFormat.PIP lockfile_path (Except.ok lf) applies_to
        targets =
      { result := Result.Error (noApplicableError lockfile_path
          lf.locked_resolves.length targets),
        sink_opened := false, emitted := [] } ∧
    (enumeratedLines targetStr targets).length = targets.length ∧
    noApplicableError lockfile_path lf.locked_resolves.length targets =
      "Of the " ++ toString lf.locked_resolves.length ++ " " ++
        (if lf.locked_resolves.length = 1 then "lock" else "locks") ++
        " stored in " ++ lockfile_path ++
        ", none were applicable for the selected targets:\n" ++
        String.intercalate "\n" (enumeratedLines targetStr targets) := by
  have hsel := select_none_applicable lf applies_to targets h
  refine ⟨?_, enumeratedLines_length _ _, ?_⟩
  · simp [Lock._export, exportDecide, groupSelected, hsel]
  · simp only [noApplicableError, pluralize_lock]

theorem export_none_applicable_report_witness :
    Lock._export ExportFormat.PIP "lock.json"
        (Except.ok (Lockfile.mk "2.1.50" "pip-2020-resolver" ["a"] []
          false true true true
          [LockedResolve.mk "linux_x86_64" ["a==1 --hash=sha256:aa"]]))
        (fun _ _ => false) [DistributionTarget.mk "cp310-cp310-win_amd64"] =
      { result := Result.Error (noApplicableError "lock.json" 1
          [DistributionTarget.mk "cp310-cp310-win_amd64"]),
        sink_opened := false, emitted := [] } :=
  (export_none_applicable_report "lock.json" _ _ _
    (fun _ _ _ _ => rfl)).1

/-- C9: export never partially succeeds: on every error outcome the output
sink is never opened and nothing is emitted, and the sink is opened
exactly on the unique-group success path (supported format, document
loaded, grouping with exactly one key). -/
theorem export_no_partial_success (format : ExportFormat)
    (lockfile_path : String) (load_result : Except String Lockfile)
    (applies_to : LockedResolve → DistributionTarget → Bool)
    (targets : List DistributionTarget) :
    (∀ msg,
      (Lock._export format lockfile_path load_result applies_to
          targets).result = Result.Error msg →
      (Lock._export format lockfile_path load_result applies_to
          targets).sink_opened = false ∧
      (Lock._export format lockfile_path load_result applies_to
          targets).emitted = []) ∧
    ((Lock._export format lockfile_path load_result applies_to
        targets).sink_opened = true ↔
      ((Lock._export format lockfile_path load_result applies_to
          targets).result = Result.Ok ∧
        format = ExportFormat.PIP ∧
        ∃ lf, load_result = Except.ok lf ∧
          (groupSelected (lf.select applies_to targets)).length = 1)) := by
  cases format with
  | PEP_665 =>
    refine ⟨fun msg _ => ⟨rfl, rfl⟩, ?_⟩
    simp [Lock._export]
  | PIP =>
    cases load_result with
    | error e =>
      refine ⟨fun msg _ => ⟨rfl, rfl⟩, ?_⟩
      simp [Lock._export]
    | ok lf =>
      rcases hshape : groupSelected (lf.select applies_to targets) with
        _ | ⟨⟨k₁, ts₁⟩, _ | ⟨⟨k₂, ts₂⟩, rest⟩⟩
      · refine ⟨fun msg _ => ?_, ?_⟩
        · constructor <;> simp [Lock._export, exportDecide, hshape]
        · constructor
          · intro habs
            simp [Lock._export, exportDecide, hshape] at habs
          · rintro ⟨-, -, lf', heq, hlen⟩
            cases heq
            rw [hshape] at hlen
            simp at hlen
      · refine ⟨fun msg hmsg => ?_, ?_⟩
        · simp [Lock._export, exportDecide, hshape] at hmsg
        · constructor
          · intro _
            refine ⟨?_, rfl, lf, rfl, ?_⟩
            · simp [Lock._export, exportDecide, hshape]
            · rw [hshape]
              rfl
          · intro _
            simp [Lock._export, exportDecide, hshape]
      · refine ⟨fun msg _ => ?_, ?_⟩
        · constructor <;> simp [Lock._export, exportDecide, hshape]
        · constructor
          · intro habs
            simp [Lock._export, exportDecide, hshape] at habs
          · rintro ⟨hres, -, lf', heq, hlen⟩
            cases heq
            rw [hshape] at hlen
            simp at hlen

/-- C4: for every parsed requirement sequence containing at least one
local-project requirement, `_create` fails without ever invoking the
download/resolve step, and the error reports the count of local-project
requirements and enumerates every offending project's path, in input
order, 1-indexed. -/
theorem create_rejects_local_projects (pex_version resolver_version : String)
    (parsed_requirements : List ParsedRequirement)
    (parsed_constraints : List String)
    (allow_prereleases allow_wheels allow_builds transitive : Bool)
    (download_result : Except String (List LockedResolve))
    (h : ∃ p, ParsedRequirement.localProject p ∈ parsed_requirements) :
    Lock._create pex_version resolver_version parsed_requirements
        parsed_constraints allow_prereleases allow_wheels allow_builds
        transitive download_result =
      { result := Result.Error
          (localProjectsError (localProjectPaths parsed_requirements)),
        download_invoked := false, doc := none } ∧
    (∀ p, p ∈ localProjectPaths parsed_requirements ↔
      ParsedRequirement.localProject p ∈ parsed_requirements) ∧
    localProjectsError (localProjectPaths parsed_requirements) =
      "Cannot create a lock for local project requirements. Given " ++
        toString (localProjectPaths parsed_requirements).length ++ ":\n" ++
        String.intercalate "\n" (enumeratedLines (fun p => p)
          (localProjectPaths parsed_requirements)) := by
  obtain ⟨p, hp⟩ := h
  have hne : localProjectPaths parsed_requirements ≠ [] :=
    List.ne_nil_of_mem ((mem_localProjectPaths _ _).mpr hp)
  refine ⟨?_, fun q => mem_localProjectPaths _ q, rfl⟩
  simp [Lock._create, partition_foldl, hne]

theorem create_rejects_local_projects_witness :
    Lock._create "2.1.50" "pip-2020-resolver"
        [ParsedRequirement.requirement "ansicolors==1.1.8",
          ParsedRequirement.localProject "/code/projA",
          ParsedRequirement.localProject "/code/projB"]
        [] false true true true (Except.ok []) =
      { result := Result.Error
          (localProjectsError ["/code/projA", "/code/projB"]),
        download_invoked := false, doc := none } :=
  (create_rejects_local_projects "2.1.50" "pip-2020-resolver" _ _ _ _ _ _ _
    ⟨"/code/projA", by simp⟩).1

/-- C5: for every parsed requirement sequence with zero local-project
entries, `_create` succeeds exactly when the download/resolve step does;
on success the assembled lock document's requirement and constraint lists
are the originally parsed, pre-download requirement and constraint sets in
order, and its locked resolves are exactly the download step's output
sequence; a download failure surfaces as the terminal error. -/
theorem create_success_iff_download (pex_version resolver_version : String)
    (parsed_requirements : List ParsedRequirement)
    (parsed_constraints : List String)
    (allow_prereleases allow_wheels allow_builds transitive : Bool)
    (download_result : Except String (List LockedResolve))
    (h : localProjectPaths parsed_requirements = []) :
    ((Lock._create pex_version resolver_version parsed_requirements
        parsed_constraints allow_prereleases allow_wheels allow_builds
        transitive download_result).result = Result.Ok ↔
      download_result.isOk = true) ∧
    (∀ locked_resolves, download_result = Except.ok locked_resolves →
      Lock._create pex_version resolver_version parsed_requirements
          parsed_constraints allow_prereleases allow_wheels allow_builds
          transitive download_result =
        { result := Result.Ok, download_invoked := true,
          doc := some
            { pex_version := pex_version,
              resolver_version := resolver_version,
              requirements := plainRequirements parsed_requirements,
              constraints := parsed_constraints,
              allow_prereleases := allow_prereleases,
              allow_wheels := allow_wheels, allow_builds := allow_builds,
              transitive := transitive,
              locked_resolves := locked_resolves } }) ∧
    (∀ e, download_result = Except.error e →
      Lock._create pex_version resolver_version parsed_requirements
          parsed_constraints allow_prereleases allow_wheels allow_builds
          transitive download_result =
        { result := Result.Error e, download_invoked := true,
          doc := none }) := by
  cases download_result with
  | error e =>
    refine ⟨?_, fun lrs hlrs => by simp at hlrs, fun e' he' => ?_⟩
    · simp [Lock._create, partition_foldl, h, Except.isOk, Except.toBool]
    · simp only [Except.error.injEq] at he'
      subst he'
      simp [Lock._create, partition_foldl, h]
  | ok locked_resolves =>
    refine ⟨?_, fun lrs hlrs => ?_, fun e' he' => by simp at he'⟩
    · simp [Lock._create, partition_foldl, h, Except.isOk, Except.toBool]
    · simp only [Except.ok.injEq] at hlrs
      subst hlrs
      simp [Lock._create, partition_foldl, h, Lockfile.create]

theorem create_success_iff_download_witness :
    ((Lock._create "2.1.50" "pip-2020-resolver"
        [ParsedRequirement.requirement "ansicolors==1.1.8"]
        ["setuptools<58"] false true true true
        (Except.ok [LockedResolve.mk "linux_x86_64"
          ["ansicolors==1.1.8 --hash=sha256:aa"]])).result = Result.Ok ↔
      (Except.ok [LockedResolve.mk "linux_x86_64"
          ["ansicolors==1.1.8 --hash=sha256:aa"]] :
        Except String (List LockedResolve)).isOk = true) ∧
    (∀ locked_resolves,
      (Except.ok [LockedResolve.mk "linux_x86_64"
          ["ansicolors==1.1.8 --hash=sha256:aa"]] :
        Except String (List LockedResolve)) = Except.ok locked_resolves →
      Lock._create "2.1.50" "pip-2020-resolver"
          [ParsedRequirement.requirement "ansicolors==1.1.8"]
          ["setuptools<58"] false true true true
          (Except.ok [LockedResolve.mk "linux_x86_64"
            ["ansicolors==1.1.8 --hash=sha256:aa"]]) =
        { result := Result.Ok, download_invoked := true,
          doc := some
            { pex_version := "2.1.50",
              resolver_version := "pip-2020-resolver",
              requirements := plainRequirements
                [ParsedRequirement.requirement "ansicolors==1.1.8"],
              constraints := ["setuptools<58"],
              allow_prereleases := false, allow_wheels := true,
              allow_builds := true, transitive := true,
              locked_resolves := locked_resolves } }) ∧
    (∀ e,
      (Except.ok [LockedResolve.mk "linux_x86_64"
          ["ansicolors==1.1.8 --hash=sha256:aa"]] :
        Except String (List LockedResolve)) = Except.error e →
      Lock._create "2.1.50" "pip-2020-resolver"
          [ParsedRequirement.requirement "ansicolors==1.1.8"]
          ["setuptools<58"] false true true true
          (Except.ok [LockedResolve.mk "linux_x86_64"
            ["ansicolors==1.1.8 --hash=sha256:aa"]]) =
        { result := Result.Error e, download_invoked := true,
          doc := none }) :=
  create_success_iff_download "2.1.50" "pip-2020-resolver" _ _ _ _ _ _ _ rfl
